import Mathlib

/-!
Verification of `src/concrete.py`, a library of closed-form reinforced-concrete
design equations (ACI 318).

Modelling conventions:
- Python floats are modelled exactly: by rationals (`ℚ`) in the functions that
  use only field arithmetic (so the definitions are executable), and by reals
  (`ℝ`) in the four functions that call `math.sqrt`.
- Python raises `ZeroDivisionError` on float division by zero and `math.sqrt`
  raises `ValueError` on a negative argument; a function whose body can raise
  is therefore modelled as returning `Option ℝ`, with `none` standing for the
  raised exception and `some v` for a normal return of `v`.
- `math.copysign(x, y)` is modelled on the reals: `|x|` carrying the sign of
  `y` (negative when `y < 0`, else nonnegative; reals have no negative zero).
-/

namespace Concrete

/-- Steel modulus of elasticity (psi), module constant `DEFAULT_ES`. -/
def DEFAULT_ES : ℚ := 29000000.0

/-- Default steel yield strength (psi), module constant `DEFAULT_FY`. -/
def DEFAULT_FY : ℚ := 60000.0

/-- Default limit concrete strain, module constant `DEFAULT_ECU`. -/
def DEFAULT_ECU : ℚ := -0.003

/-- Model of Python `math.copysign x y`: the magnitude of `x` carrying the
sign of `y`. -/
def copysign (x y : ℚ) : ℚ := if y < 0 then -|x| else |x|

/-- `beta1(fc)` from the source: rescales `fc < 10` (assumed ksi) into psi,
then the three-branch table 22.2.2.4.3 value. -/
def beta1 (fc : ℚ) : ℚ :=
  let fc' := if fc < 10 then fc * 1000 else fc
  if fc' ≤ 4000 then 0.85
  else if fc' ≥ 8000 then 0.65
  else 0.85 - 0.05 * (fc' - 4000) / 1000

/-- `cDist(aDist, betaOne)` from the source: `aDist / betaOne`.
Python raises `ZeroDivisionError` when `betaOne == 0`, modelled as `none`. -/
def cDist (aDist betaOne : ℚ) : Option ℚ :=
  if betaOne = 0 then none else some (aDist / betaOne)

/-- `aDist(fc, bw, Astl, fy)` from the source: `fy * Astl / (0.85 * fc * bw)`.
Python raises `ZeroDivisionError` when the denominator is zero, modelled as
`none`. (The Python signature defaults `fy` to `DEFAULT_FY`; the spec model
passes it explicitly.) -/
def aDist (fc bw Astl fy : ℚ) : Option ℚ :=
  if 0.85 * fc * bw = 0 then none else some (fy * Astl / (0.85 * fc * bw))

/-- `Ec(fc, wc)` from the source: rescales `fc < 10` into psi, then
`57000*sqrt(fc)` when `wc is None`, else `(wc**1.5)*33*sqrt(fc)`.
`math.sqrt` of a negative rescaled strength raises, modelled as `none`
(`wc` is documented as 90–160 pcf, so `wc**1.5` is taken as a real power). -/
noncomputable def Ec (fc : ℝ) (wc : Option ℝ) : Option ℝ :=
  let fc' := if fc < 10 then fc * 1000 else fc
  if fc' < 0 then none
  else
    match wc with
    | none => some (57000 * Real.sqrt fc')
    | some w => some (w ^ (1.5 : ℝ) * 33 * Real.sqrt fc')

/-- `ruptureModulus(fc, lam)` from the source: rescales `fc < 10` into psi,
then `7.5*lam*sqrt(fc)`; negative rescaled strength raises, modelled `none`. -/
noncomputable def ruptureModulus (fc lam : ℝ) : Option ℝ :=
  let fc' := if fc < 10 then fc * 1000 else fc
  if fc' < 0 then none else some (7.5 * lam * Real.sqrt fc')

/-- `getStrain(dDist, cDist, ecu)` from the source: `ecu * (1 - dDist/cDist)`.
Python raises `ZeroDivisionError` when `cDist == 0`, modelled as `none`. -/
def getStrain (dDist cDist ecu : ℚ) : Option ℚ :=
  if cDist = 0 then none else some (ecu * (1 - dDist / cDist))

/-- `yieldStrain(fy, Es)` from the source: `fy / Es`; Python raises when
`Es == 0`, modelled as `none`. -/
def yieldStrain (fy Es : ℚ) : Option ℚ :=
  if Es = 0 then none else some (fy / Es)

/-- `steelStress(strain, Es, fy)` from the source:
`ey = fy/Es`; if `abs(strain/ey) < 1` return `copysign(strain*Es, strain)`
else return `copysign(fy, strain)`. The two divisions raise when `Es == 0`
or `ey == 0`, modelled as `none`. -/
def steelStress (strain Es fy : ℚ) : Option ℚ :=
  if Es = 0 then none
  else
    let ey := fy / Es
    if ey = 0 then none
    else if |strain / ey| < 1 then some (copysign (strain * Es) strain)
    else some (copysign fy strain)

/-- `getVc(fc, bw, dDist, lam)` from the source: `2*lam*sqrt(fc)*bw*dDist`;
`math.sqrt` raises on `fc < 0`, modelled as `none`. No ksi rescaling occurs
in this function. -/
noncomputable def getVc (fc bw dDist lam : ℝ) : Option ℝ :=
  if fc < 0 then none else some (2 * lam * Real.sqrt fc * bw * dDist)

/-- `getVcWithAxial(fc, bw, dDist, Nu, Ag, lam, isSignificantTension)` from
the source: `denom = 500` under significant tension else `2000`;
`Vc = 2*(1+Nu/(denom*Ag))*lam*sqrt(fc)*bw*dDist`; returns `max(Vc, 0)`.
The division raises when `denom*Ag == 0` and `math.sqrt` raises on `fc < 0`,
both modelled as `none`. No ksi rescaling occurs in this function. -/
noncomputable def getVcWithAxial (fc bw dDist Nu Ag lam : ℝ)
    (isSignificantTension : Bool) : Option ℝ :=
  let denom : ℝ := if isSignificantTension then 500 else 2000
  if denom * Ag = 0 then none
  else if fc < 0 then none
  else some (max (2 * (1 + Nu / (denom * Ag)) * lam * Real.sqrt fc * bw * dDist) 0)

/-- Concrete material bundle, as described by the spec's data model
(strength, beta1 factor, ultimate strain, lightweight factor). -/
structure ConcreteMaterial where
  fc : ℚ
  b1 : ℚ
  ecu : ℚ
  lam : ℚ

/-- Rebar material bundle, as described by the spec's data model
(yield strength and elastic modulus). -/
structure RebarMaterial where
  fy : ℚ
  Es : ℚ

/-- Derived yield strain `ey = fy / Es` of a rebar material. -/
def RebarMaterial.ey (r : RebarMaterial) : ℚ := r.fy / r.Es

/-- Modelled from the spec: the large sentinel value `zFromC` returns at the
degenerate neutral axis `c = 0` ("strain far past rupture"); the function
itself is absent from `src/`. -/
def Z_SENTINEL : ℚ := 1000000

/-- Modelled from the spec: `zFromC(c, d, concrete, rebar)` is absent from
`src/`. The spec defines `Z` only as a dimensionless ductility ratio relative
to one steel layer's depth `d` and the yield strain; it is modelled as the
similar-triangles strain at depth `d`, `ecu * (1 - d/c)`, divided by the
yield strain `ey = fy/Es`, with the documented large sentinel at `c = 0`. -/
def zFromC (c d : ℚ) (con : ConcreteMaterial) (reb : RebarMaterial) : ℚ :=
  if c = 0 then Z_SENTINEL else con.ecu * (1 - d / c) / reb.ey

/-- Modelled from the spec: `cFromZ(Z, d, concrete, rebar)` is absent from
`src/`. It inverts the `zFromC` relation `Z = ecu * (1 - d/c) / ey`, giving
`c = d / (1 - Z * ey / ecu)`. -/
def cFromZ (Z d : ℚ) (con : ConcreteMaterial) (reb : RebarMaterial) : ℚ :=
  d / (1 - Z * reb.ey / con.ecu)

/-- Helper: for a positive factor `e`, `copysign (s * e) s` is just `s * e`
(the product already carries the sign of `s`). -/
theorem copysign_mul_right (s e : ℚ) (he : 0 < e) : copysign (s * e) s = s * e := by
  unfold copysign
  rcases lt_or_le s 0 with h | h
  · rw [if_pos h, abs_of_nonpos (by nlinarith), neg_neg]
  · rw [if_neg (not_lt.mpr h), abs_of_nonneg (by positivity)]

/-- Helper: `copysign` of a positive magnitude is that magnitude with the
sign of the second argument. -/
theorem copysign_of_pos (x s : ℚ) (hx : 0 < x) :
    copysign x s = if s < 0 then -x else x := by
  unfold copysign
  rw [abs_of_pos hx]

/-- Helper: closed form of `steelStress` for positive `fy` and `Es`:
elastic value `strain * Es` below the yield strain, else `±fy` by the sign
of the strain. -/
theorem steelStress_eq (strain Es fy : ℚ) (hfy : 0 < fy) (hEs : 0 < Es) :
    steelStress strain Es fy =
      some (if |strain| < fy / Es then strain * Es
            else if strain < 0 then -fy else fy) := by
  unfold steelStress
  have hey : 0 < fy / Es := div_pos hfy hEs
  rw [if_neg (ne_of_gt hEs), if_neg (ne_of_gt hey)]
  have habs : |strain / (fy / Es)| = |strain| / (fy / Es) := by
    rw [abs_div, abs_of_pos hey]
  by_cases h : |strain| < fy / Es
  · rw [if_pos, copysign_mul_right strain Es hEs]
    · rw [if_pos h]
    · rw [habs]
      exact (div_lt_one hey).mpr h
  · rw [if_neg, copysign_of_pos fy strain hfy, if_neg h]
    rw [habs]
    intro hcon
    exact h ((div_lt_one hey).mp hcon)

/-- Claim C1: with `fy > 0`, `Es > 0` and `ey = fy/Es`, `steelStress` returns
`strain * Es` exactly when `|strain| < ey`, and `fy` carrying the sign of the
strain when `|strain| ≥ ey` (elastic-perfectly-plastic clip). -/
theorem steelStress_clip (strain Es fy : ℚ) (hfy : 0 < fy) (hEs : 0 < Es) :
    (|strain| < fy / Es → steelStress strain Es fy = some (strain * Es)) ∧
    (fy / Es ≤ |strain| →
      steelStress strain Es fy = some (if strain < 0 then -fy else fy)) := by
  constructor
  · intro h
    rw [steelStress_eq strain Es fy hfy hEs, if_pos h]
  · intro h
    rw [steelStress_eq strain Es fy hfy hEs, if_neg (not_lt.mpr h)]

/-- Claim C1 witness: with `fy = 60000`, `Es = 29000000`, strain `0.0025`
yields stress `60000` (saturated) and strain `0.001` yields `29000`
(elastic). -/
theorem steelStress_clip_witness :
    (0:ℚ) < 60000 ∧ (0:ℚ) < 29000000 ∧
    steelStress 0.0025 29000000 60000 = some 60000 ∧
    steelStress 0.001 29000000 60000 = some 29000 := by
  refine ⟨by norm_num, by norm_num, ?_, ?_⟩
  · have h := (steelStress_clip 0.0025 29000000 60000 (by norm_num) (by norm_num)).2
      (by rw [abs_of_nonneg] <;> norm_num)
    rw [h]
    norm_num
  · have h := (steelStress_clip 0.001 29000000 60000 (by norm_num) (by norm_num)).1
      (by rw [abs_of_nonneg] <;> norm_num)
    rw [h]
    norm_num

/-- Claim C9: with `fy > 0`, `Es > 0`, the returned stress never exceeds
yield in magnitude, with equality exactly when `|strain| ≥ fy/Es`,
including at the boundary. -/
theorem steelStress_yield_bound (strain Es fy : ℚ) (hfy : 0 < fy) (hEs : 0 < Es) :
    ∃ v, steelStress strain Es fy = some v ∧ |v| ≤ fy ∧
      (|v| = fy ↔ fy / Es ≤ |strain|) := by
  have hey : 0 < fy / Es := div_pos hfy hEs
  by_cases h : |strain| < fy / Es
  · refine ⟨strain * Es, ?_, ?_, ?_⟩
    · rw [steelStress_eq strain Es fy hfy hEs, if_pos h]
    · rw [abs_mul, abs_of_pos hEs]
      calc |strain| * Es ≤ fy / Es * Es := by nlinarith [abs_nonneg strain]
        _ = fy := div_mul_cancel₀ fy (ne_of_gt hEs)
    · constructor
      · intro hv
        exfalso
        have h1 : |strain| * Es < fy / Es * Es := mul_lt_mul_of_pos_right h hEs
        rw [div_mul_cancel₀ fy (ne_of_gt hEs)] at h1
        rw [abs_mul, abs_of_pos hEs] at hv
        exact absurd hv (ne_of_lt h1)
      · intro hcon
        exact absurd hcon (not_le.mpr h)
  · refine ⟨if strain < 0 then -fy else fy, ?_, ?_, ?_⟩
    · rw [steelStress_eq strain Es fy hfy hEs, if_neg h]
    · split <;> simp [abs_of_pos hfy, abs_neg]
    · constructor
      · intro _
        exact not_lt.mp h
      · intro _
        split <;> simp [abs_of_pos hfy, abs_neg]

/-- Claim C9 witness: at the exact yield strain `3/1450 = 60000/29000000`
the bound holds with equality. -/
theorem steelStress_yield_bound_witness :
    (0:ℚ) < 60000 ∧ (0:ℚ) < 29000000 ∧
    ∃ v, steelStress (3/1450) 29000000 60000 = some v ∧ |v| ≤ 60000 ∧
      (|v| = 60000 ↔ (60000:ℚ) / 29000000 ≤ |(3/1450 : ℚ)|) :=
  ⟨by norm_num, by norm_num,
    steelStress_yield_bound (3/1450) 29000000 60000 (by norm_num) (by norm_num)⟩

/-- Claim C2 counterexample: at degenerate inputs (`fc*bw = 0`,
`betaOne = 0`, `cDist = 0`) the source functions perform an unguarded
division and raise `ZeroDivisionError` (modelled `none`); in particular
`aDist` does not return the claimed sentinel `0`. -/
theorem degenerate_inputs_raise :
    aDist 0 1 1 60000 = none ∧ aDist 0 1 1 60000 ≠ some 0 ∧
    cDist 1 0 = none ∧ getStrain 1 0 (-3/1000) = none := by
  refine ⟨?_, ?_, ?_, ?_⟩ <;> simp [aDist, cDist, getStrain]

/-- Claim C2 amended: on degenerate inputs the three functions propagate a
`ZeroDivisionError` (modelled `none`) rather than returning a sentinel
value: `aDist` raises exactly when `fc * bw = 0`, `cDist` exactly when
`betaOne = 0`, and `getStrain` exactly when `cDist = 0`. -/
theorem degenerate_inputs_none_iff (fc bw Astl fy a b1 d c ecu : ℚ) :
    (aDist fc bw Astl fy = none ↔ fc * bw = 0) ∧
    (cDist a b1 = none ↔ b1 = 0) ∧
    (getStrain d c ecu = none ↔ c = 0) := by
  refine ⟨?_, ?_, ?_⟩
  · unfold aDist
    by_cases h : (0.85:ℚ) * fc * bw = 0
    · rw [if_pos h]
      simp only [true_iff]
      rw [mul_assoc] at h
      rcases mul_eq_zero.mp h with h' | h'
      · norm_num at h'
      · exact h'
    · rw [if_neg h]
      simp only [reduceCtorEq, false_iff]
      intro hcon
      exact h (by rw [mul_assoc, hcon, mul_zero])
  · unfold cDist
    by_cases h : b1 = 0
    · simp [h]
    · simp [h]
  · unfold getStrain
    by_cases h : c = 0
    · simp [h]
    · simp [h]

/-- Claim C3: for nonzero `cDist`, `getStrain` is the similar-triangles
profile `ecu * (1 - d/c)`; at the extreme compression fiber (`d = 0`) it
returns `ecu` and at the neutral axis (`d = c`) it returns `0`. -/
theorem getStrain_profile (d c ecu : ℚ) (hc : c ≠ 0) :
    getStrain d c ecu = some (ecu * (1 - d / c)) ∧
    getStrain 0 c ecu = some ecu ∧
    getStrain c c ecu = some 0 := by
  unfold getStrain
  rw [if_neg hc, if_neg hc, if_neg hc]
  refine ⟨rfl, ?_, ?_⟩
  · norm_num
  · rw [div_self hc]
    norm_num

/-- Claim C3 witness: at `d = 5`, `c = 10`, `ecu = -0.003` the profile gives
`-0.0015`, and the two endpoint identities hold. -/
theorem getStrain_profile_witness :
    (10:ℚ) ≠ 0 ∧ getStrain 5 10 (-3/1000) = some (-3/2000) ∧
    getStrain 0 10 (-3/1000) = some (-3/1000) ∧ getStrain 10 10 (-3/1000) = some 0 := by
  have h := getStrain_profile 5 10 (-3/1000) (by norm_num)
  refine ⟨by norm_num, ?_, h.2.1, h.2.2⟩
  rw [h.1]
  norm_num

/-- Claim C4: for `fc ≥ 10` (so the ksi rescaling does not fire), `beta1` is
`0.85` up to `4000`, `0.65` from `8000`, and the linear interpolation
`0.85 - 0.05*(fc-4000)/1000` in between. -/
theorem beta1_table (fc : ℚ) (h10 : 10 ≤ fc) :
    (fc ≤ 4000 → beta1 fc = 0.85) ∧
    (8000 ≤ fc → beta1 fc = 0.65) ∧
    (4000 < fc → fc < 8000 → beta1 fc = 0.85 - 0.05 * (fc - 4000) / 1000) := by
  unfold beta1
  rw [if_neg (not_lt.mpr h10)]
  refine ⟨?_, ?_, ?_⟩
  · intro h
    rw [if_pos h]
  · intro h
    rw [if_neg (by linarith), if_pos (ge_iff_le.mpr h)]
  · intro h1 h2
    rw [if_neg (not_le.mpr h1), if_neg (by simpa [ge_iff_le] using not_le.mpr h2)]

/-- Claim C4 witness: `beta1 6000 = 0.75`. -/
theorem beta1_table_witness : (10:ℚ) ≤ 6000 ∧ beta1 6000 = 0.75 := by
  refine ⟨by norm_num, ?_⟩
  have h := (beta1_table 6000 (by norm_num)).2.2 (by norm_num) (by norm_num)
  rw [h]
  norm_num

/-- Claim C8: for nondegenerate `c`, layer depth `d` and valid materials,
the spec-modelled neutral-axis/ductility conversions are mutually inverse:
`cFromZ (zFromC c d con reb) d con reb = c`. -/
theorem cFromZ_zFromC_roundTrip (c d : ℚ) (con : ConcreteMaterial) (reb : RebarMaterial)
    (hc : c ≠ 0) (hd : d ≠ 0) (hecu : con.ecu ≠ 0)
    (hfy : reb.fy ≠ 0) (hEs : reb.Es ≠ 0) :
    cFromZ (zFromC c d con reb) d con reb = c := by
  have hey : reb.ey ≠ 0 := div_ne_zero hfy hEs
  unfold zFromC cFromZ
  rw [if_neg hc]
  have h1 : con.ecu * (1 - d / c) / reb.ey * reb.ey / con.ecu = 1 - d / c := by
    field_simp
    ring
  rw [h1]
  have h2 : 1 - (1 - d / c) = d / c := by ring
  rw [h2]
  field_simp

/-- Claim C8 witness: round trip at `c = 10`, `d = 18` with 4000 psi
concrete and Grade 60 rebar. -/
theorem cFromZ_zFromC_roundTrip_witness :
    (10:ℚ) ≠ 0 ∧ (18:ℚ) ≠ 0 ∧
    cFromZ (zFromC 10 18 ⟨4000, 0.85, -3/1000, 1⟩ ⟨60000, 29000000⟩) 18
      ⟨4000, 0.85, -3/1000, 1⟩ ⟨60000, 29000000⟩ = 10 :=
  ⟨by norm_num, by norm_num,
    cFromZ_zFromC_roundTrip 10 18 ⟨4000, 0.85, -3/1000, 1⟩ ⟨60000, 29000000⟩
      (by norm_num) (by norm_num) (by norm_num) (by norm_num) (by norm_num)⟩

/-- Claim C5: for `fc ≥ 0` and `Ag > 0`, `getVcWithAxial` equals
`max 0 ((1 + Nu/(k*Ag)) * 2*lam*sqrt(fc)*bw*dDist)` with `k = 500` under
significant tension and `2000` otherwise; hence any returned value is
nonnegative, and the return is exactly `0` whenever the unclamped formula
is negative. -/
theorem getVcWithAxial_spec (fc bw dDist Nu Ag lam : ℝ) (sig : Bool)
    (hfc : 0 ≤ fc) (hAg : 0 < Ag) :
    getVcWithAxial fc bw dDist Nu Ag lam sig =
      some (max 0 ((1 + Nu / ((if sig then (500:ℝ) else 2000) * Ag)) *
        (2 * lam * Real.sqrt fc * bw * dDist))) ∧
    (∀ v, getVcWithAxial fc bw dDist Nu Ag lam sig = some v → 0 ≤ v) ∧
    ((1 + Nu / ((if sig then (500:ℝ) else 2000) * Ag)) *
        (2 * lam * Real.sqrt fc * bw * dDist) < 0 →
      getVcWithAxial fc bw dDist Nu Ag lam sig = some 0) := by
  have hdenom : (0:ℝ) < (if sig then (500:ℝ) else 2000) := by
    cases sig <;> norm_num
  have hne : (if sig then (500:ℝ) else 2000) * Ag ≠ 0 :=
    ne_of_gt (mul_pos hdenom hAg)
  have heq : getVcWithAxial fc bw dDist Nu Ag lam sig =
      some (max 0 ((1 + Nu / ((if sig then (500:ℝ) else 2000) * Ag)) *
        (2 * lam * Real.sqrt fc * bw * dDist))) := by
    unfold getVcWithAxial
    rw [if_neg hne, if_neg (not_lt.mpr hfc), max_comm]
    congr 2
    ring
  refine ⟨heq, ?_, ?_⟩
  · intro v hv
    rw [heq] at hv
    have hm : max 0 ((1 + Nu / ((if sig then (500:ℝ) else 2000) * Ag)) *
        (2 * lam * Real.sqrt fc * bw * dDist)) = v := Option.some.inj hv
    rw [← hm]
    exact le_max_left 0 _
  · intro hneg
    rw [heq, max_eq_left (le_of_lt hneg)]

/-- Claim C5 witness: `fc = 4`, `Nu = -4000`, `Ag = 1` without significant
tension makes the unclamped formula `(1 - 2) * 4 = -4 < 0`; the function
returns exactly `0`. -/
theorem getVcWithAxial_spec_witness :
    (0:ℝ) ≤ 4 ∧ (0:ℝ) < 1 ∧ getVcWithAxial 4 1 1 (-4000) 1 1 false = some 0 := by
  have hs : Real.sqrt 4 = 2 := by
    rw [show (4:ℝ) = 2^2 by norm_num, Real.sqrt_sq (by norm_num)]
  refine ⟨by norm_num, by norm_num, ?_⟩
  apply (getVcWithAxial_spec 4 1 1 (-4000) 1 1 false (by norm_num) (by norm_num)).2.2
  rw [hs]
  norm_num

/-- Claim C6 counterexample: `getVc` applies no ksi rescaling, so
`getVc 4 1 1 1 = some 4` differs from `getVc (1000*4) 1 1 1 =
some (2*sqrt 4000) > some 120`. -/
theorem ksi_rescale_fails_for_getVc : getVc 4 1 1 1 ≠ getVc (1000 * 4) 1 1 1 := by
  intro h
  unfold getVc at h
  rw [if_neg (by norm_num), if_neg (by norm_num)] at h
  have hs4 : Real.sqrt 4 = 2 := by
    rw [show (4:ℝ) = 2^2 by norm_num, Real.sqrt_sq (by norm_num)]
  have h60 : (60:ℝ) < Real.sqrt (1000 * 4) := by
    rw [show (1000 * 4 : ℝ) = 4000 by norm_num]
    exact (Real.lt_sqrt (by norm_num)).mpr (by norm_num)
  have hv := Option.some.inj h
  rw [hs4] at hv
  nlinarith [hv, h60]

/-- Claim C6 amended: the "below 10 is ksi" rescaling heuristic is applied
by exactly the three functions that implement it — `beta1`, `Ec` and
`ruptureModulus` satisfy `f fc = f (1000*fc)` for `0.01 ≤ fc < 10` —
while `aDist`, `getVc` and `getVcWithAxial` use `fc` unscaled. -/
theorem ksi_rescale_spec :
    (∀ fc : ℚ, 0.01 ≤ fc → fc < 10 → beta1 fc = beta1 (1000 * fc)) ∧
    (∀ (fc : ℝ) (wc : Option ℝ), 0.01 ≤ fc → fc < 10 → Ec fc wc = Ec (1000 * fc) wc) ∧
    (∀ fc lam : ℝ, 0.01 ≤ fc → fc < 10 →
      ruptureModulus fc lam = ruptureModulus (1000 * fc) lam) := by
  refine ⟨?_, ?_, ?_⟩
  · intro fc hlo hhi
    have h1 : ¬ (1000 * fc < 10) := by
      push_neg
      linarith
    simp only [beta1]
    rw [if_pos hhi, if_neg h1, mul_comm fc 1000]
  · intro fc wc hlo hhi
    have h1 : ¬ ((1000:ℝ) * fc < 10) := by
      push_neg
      linarith
    simp only [Ec]
    rw [if_pos hhi, if_neg h1, mul_comm fc 1000]
  · intro fc lam hlo hhi
    have h1 : ¬ ((1000:ℝ) * fc < 10) := by
      push_neg
      linarith
    simp only [ruptureModulus]
    rw [if_pos hhi, if_neg h1, mul_comm fc 1000]

/-- Claim C6 amended witness: the rescale identity at `fc = 4` ksi for the
three functions that implement it. -/
theorem ksi_rescale_spec_witness :
    ((0.01:ℚ) ≤ 4 ∧ (4:ℚ) < 10 ∧ (0.01:ℝ) ≤ 4 ∧ (4:ℝ) < 10) ∧
    beta1 4 = beta1 4000 ∧ Ec 4 none = Ec 4000 none ∧
    ruptureModulus 4 1 = ruptureModulus 4000 1 := by
  refine ⟨⟨by norm_num, by norm_num, by norm_num, by norm_num⟩, ?_, ?_, ?_⟩
  · have h := ksi_rescale_spec.1 4 (by norm_num) (by norm_num)
    rw [h, show (1000 * 4 : ℚ) = 4000 by norm_num]
  · have h := ksi_rescale_spec.2.1 4 none (by norm_num) (by norm_num)
    rw [h, show (1000 * 4 : ℝ) = 4000 by norm_num]
  · have h := ksi_rescale_spec.2.2 4 1 (by norm_num) (by norm_num)
    rw [h, show (1000 * 4 : ℝ) = 4000 by norm_num]

/-- Claim C7: for `fc ≥ 0`, `getVc` is exactly `2*lam*sqrt(fc)*bw*dDist`;
at `fc = 4000`, `bw = 12`, `dDist = 20`, `lam = 1` the value is
`480*sqrt(4000)`, within `5` of the spec's quoted `30362` lbf. -/
theorem getVc_spec :
    (∀ fc bw dDist lam : ℝ, 0 ≤ fc →
      getVc fc bw dDist lam = some (2 * lam * Real.sqrt fc * bw * dDist)) ∧
    (∃ v, getVc 4000 12 20 1 = some v ∧ |v - 30362| < 5) := by
  have hmain : ∀ fc bw dDist lam : ℝ, 0 ≤ fc →
      getVc fc bw dDist lam = some (2 * lam * Real.sqrt fc * bw * dDist) := by
    intro fc bw dDist lam h
    unfold getVc
    rw [if_neg (not_lt.mpr h)]
  refine ⟨hmain, ⟨2 * 1 * Real.sqrt 4000 * 12 * 20, hmain 4000 12 20 1 (by norm_num), ?_⟩⟩
  have hlo : (63.245:ℝ) < Real.sqrt 4000 :=
    (Real.lt_sqrt (by norm_num)).mpr (by norm_num)
  have hhi : Real.sqrt 4000 < 63.25 :=
    (Real.sqrt_lt' (by norm_num)).mpr (by norm_num)
  rw [abs_lt]
  constructor <;> nlinarith

/-- Claim C7 witness: at the perfect square `fc = 4` the formula evaluates
exactly: `getVc 4 1 1 1 = some 4`. -/
theorem getVc_spec_witness : (0:ℝ) ≤ 4 ∧ getVc 4 1 1 1 = some 4 := by
  refine ⟨by norm_num, ?_⟩
  have h := getVc_spec.1 4 1 1 1 (by norm_num)
  rw [h, show Real.sqrt 4 = 2 by
    rw [show (4:ℝ) = 2^2 by norm_num, Real.sqrt_sq (by norm_num)]]
  norm_num

/-- Claim C10: with zero axial load and no significant tension, the
axial-force variant reduces to the plain shear formula for nonnegative
geometry. -/
theorem getVcWithAxial_zero_axial (fc bw dDist Ag lam : ℝ)
    (hfc : 0 ≤ fc) (hAg : 0 < Ag) (hbw : 0 ≤ bw) (hd : 0 ≤ dDist) (hlam : 0 ≤ lam) :
    getVcWithAxial fc bw dDist 0 Ag lam false = getVc fc bw dDist lam := by
  unfold getVcWithAxial getVc
  rw [if_neg (by simp; positivity), if_neg (not_lt.mpr hfc), if_neg (not_lt.mpr hfc)]
  congr 1
  rw [zero_div, add_zero, mul_one]
  have hV : 0 ≤ 2 * lam * Real.sqrt fc * bw * dDist := by positivity
  rw [max_eq_left hV]

/-- Claim C10 witness: `getVcWithAxial 4 1 1 0 1 1 false = getVc 4 1 1 1`. -/
theorem getVcWithAxial_zero_axial_witness :
    ((0:ℝ) ≤ 4 ∧ (0:ℝ) < 1 ∧ (0:ℝ) ≤ 1) ∧
    getVcWithAxial 4 1 1 0 1 1 false = getVc 4 1 1 1 :=
  ⟨⟨by norm_num, by norm_num, by norm_num⟩,
    getVcWithAxial_zero_axial 4 1 1 1 1 (by norm_num) (by norm_num) (by norm_num)
      (by norm_num) (by norm_num)⟩

end Concrete
